import Mathlib

/-!
Shallow embedding of the secret resolution subsystem of this repository:
`crates/project/src/secret_resolver.rs` together with the data model from
`crates/settings_content/src/secret.rs`.

Modelling decisions:

* `HashMap<K, V>` is embedded as an association list with unique keys
  (`mapLookup` finds the first matching key; `mapInsert` replaces the value
  when the key is present, otherwise appends a new entry — the semantics of
  `HashMap::insert`).  Iteration order of a Rust `HashMap` is unspecified;
  the association list fixes one order, and every order-sensitive statement
  below is made relative to that fixed traversal order.
* `anyhow::Error` is embedded as the chain of messages, outermost first
  (`AnyhowError.chain`).  Per anyhow's documented `Display` implementation,
  formatting with `{}` (and hence `Error::to_string`) prints only the
  outermost message; `with_context` pushes a new outermost message.  This is
  load-bearing: `pre_resolve` stores `err.to_string()` of the
  context-wrapped error, which is exactly the context line.
* The external process facility (`smol::process::Command::output`) is an
  oracle `Exec` mapping a program and argument list to an outcome: a spawn
  failure, or completion with an exit code, captured stdout bytes and a
  lossily decoded stderr.  Stdout bytes are abstracted by their UTF-8
  decoding outcome (`Utf8Bytes`), which is all `String::from_utf8` observes.
* The `async` loop in `pre_resolve` awaits each provider invocation before
  the next iteration starts, so its behaviour is captured by a sequential
  recursion that also returns the trace of provider invocations in order.
-/

namespace SecretResolverSpec

/-- Embeds `SecretReference` from `crates/settings_content/src/secret.rs`:
a provider name plus a provider-specific reference string, with structural
equality and hashing (here: derived decidable equality). -/
structure SecretReference where
  provider : String
  reference : String
deriving DecidableEq, Repr

/-- Embeds `EnvValue`: either a plain string or an unresolved secret
reference. -/
inductive EnvValue where
  | Plain (value : String)
  | Secret (secret : SecretReference)
deriving DecidableEq, Repr

/-- Embeds `EnvValue::as_secret`. -/
def EnvValue.as_secret : EnvValue → Option SecretReference
  | EnvValue.Plain _ => none
  | EnvValue.Secret s => some s

/-- An env map `HashMap<String, EnvValue>`, embedded as an association list;
well-formed maps have pairwise distinct keys. -/
abbrev EnvMap := List (String × EnvValue)

/-- Embeds `SecretResolver::collect_secrets`: iterate over the map's values
and keep every `Secret` variant's reference.  The Rust code collects into a
`Vec` with no deduplication. -/
def collect_secrets (env : EnvMap) : List SecretReference :=
  (env.map Prod.snd).filterMap EnvValue.as_secret

/-- Association-list lookup, the embedding of `HashMap::get`. -/
def mapLookup {α β : Type} [DecidableEq α] : List (α × β) → α → Option β
  | [], _ => none
  | (k, v) :: rest, key => if key = k then some v else mapLookup rest key

/-- Embedding of `HashMap::contains_key`. -/
def mapContains {α β : Type} [DecidableEq α] (m : List (α × β)) (key : α) : Bool :=
  (mapLookup m key).isSome

/-- Embedding of `HashMap::insert`: replace the value when the key is
present, otherwise append a fresh entry. -/
def mapInsert {α β : Type} [DecidableEq α] : List (α × β) → α → β → List (α × β)
  | [], key, value => [(key, value)]
  | (k, v) :: rest, key, value =>
      if key = k then (k, value) :: rest else (k, v) :: mapInsert rest key value

/-- Embeds `anyhow::Error` as its chain of messages, outermost first. -/
structure AnyhowError where
  chain : List String
deriving DecidableEq, Repr

/-- Embeds `anyhow!` / `bail!` building a fresh single-message error. -/
def anyhowNew (message : String) : AnyhowError :=
  ⟨[message]⟩

/-- Embeds `Context::with_context`: wrap an error in a new outermost
context message. -/
def AnyhowError.withContext (e : AnyhowError) (ctx : String) : AnyhowError :=
  ⟨ctx :: e.chain⟩

/-- Embeds `anyhow::Error::to_string` (the `Display` impl with `{}`):
only the outermost message is printed. -/
def AnyhowError.display (e : AnyhowError) : String :=
  e.chain.headD ("")

/-- Embeds the `#[cfg(windows)]` / `#[cfg(not(windows))]` pair
`pass_command`; the platform is passed explicitly. -/
def pass_command (isWindows : Bool) (secret : SecretReference) :
    Except AnyhowError (String × List String) :=
  if isWindows then
    Except.error (anyhowNew ("secret provider 'pass' is not supported on Windows"))
  else
    Except.ok ("pass", ["show", secret.reference])

/-- Embeds the `#[cfg(windows)]` / `#[cfg(not(windows))]` pair
`shell_command`. -/
def shell_command (isWindows : Bool) (command : String) : String × List String :=
  if isWindows then
    ("pwsh", ["-NoLogo", "-NoProfile", "-NonInteractive", "-Command", command])
  else
    ("sh", ["-c", command])

/-- Embeds `provider_command`: dispatch on the provider string (the Rust
`match` on `secret.provider.as_str()` compares the literals in order). -/
def provider_command (isWindows : Bool) (secret : SecretReference) :
    Except AnyhowError (String × List String) :=
  if secret.provider = "1password" then
    Except.ok ("op", ["read", secret.reference])
  else if secret.provider = "pass" then
    pass_command isWindows secret
  else if secret.provider = "command" then
    Except.ok (shell_command isWindows secret.reference)
  else
    Except.error (anyhowNew ("unsupported secret provider: '" ++ secret.provider ++ "'"))

/-- Stdout bytes of a finished process, abstracted by what
`String::from_utf8` observes: either the bytes decode to a string, or they
are invalid UTF-8 (the payload is the `Display` of the `FromUtf8Error`). -/
inductive Utf8Bytes where
  | valid (s : String)
  | invalid (errorDisplay : String)
deriving DecidableEq, Repr

/-- Embeds `String::from_utf8` on the abstracted bytes. -/
def from_utf8 : Utf8Bytes → Option String
  | Utf8Bytes.valid s => some s
  | Utf8Bytes.invalid _ => none

/-- The `Display` payload carried by invalid stdout bytes (empty for valid
bytes, which never reach the error path). -/
def Utf8Bytes.invalidDisplay : Utf8Bytes → String
  | Utf8Bytes.valid _ => ""
  | Utf8Bytes.invalid errorDisplay => errorDisplay

/-- Outcome of `smol::process::Command::output().await`: either spawning
failed, or the process finished with an exit code (`ExitStatus::code`,
`none` when killed by a signal), stdout bytes, and stderr decoded lossily
(`String::from_utf8_lossy`, which always yields a string). -/
inductive ExecResult where
  | spawnFailed (errorDisplay : String)
  | completed (exitCode : Option Int) (stdout : Utf8Bytes) (stderrLossy : String)
deriving DecidableEq, Repr

/-- The external process facility, an oracle from program and argument list
to an outcome. -/
abbrev Exec := String → List String → ExecResult

/-- Embeds `str::trim`: drop whitespace characters from both ends of the
string (structurally recursive over the character list, so that concrete
instances evaluate). -/
def trimChars (s : String) : String :=
  ⟨((s.data.dropWhile Char.isWhitespace).reverse.dropWhile Char.isWhitespace).reverse⟩

/-- Embeds the `{:?}` formatting of `ExitStatus::code() : Option<i32>` used
in the failure message of `resolve_secret`. -/
def formatExitCode : Option Int → String
  | some n => "Some(" ++ toString n ++ ")"
  | none => "None"

/-- Embeds `resolve_secret`: dispatch to the provider command, run it, fail
on non-zero exit with the exit code and trimmed stderr, decode stdout as
UTF-8 and trim surrounding whitespace.  `ExitStatus::success()` is
`code() == Some(0)`. -/
def resolve_secret (exec : Exec) (isWindows : Bool) (secret : SecretReference) :
    Except AnyhowError String :=
  match provider_command isWindows secret with
  | Except.error e => Except.error e
  | Except.ok (program, args) =>
    match exec program args with
    | ExecResult.spawnFailed msg =>
        Except.error ((anyhowNew msg).withContext
          ("failed to execute secret provider command: " ++ program ++ " "
            ++ String.intercalate (" ") args))
    | ExecResult.completed exitCode stdout stderrLossy =>
        if exitCode = some 0 then
          match from_utf8 stdout with
          | some value => Except.ok (trimChars value)
          | none =>
              Except.error ((anyhowNew (stdout.invalidDisplay)).withContext
                ("secret provider output is not valid UTF-8"))
        else
          Except.error (anyhowNew
            ("secret provider '" ++ secret.provider ++ "' failed (exit code "
              ++ formatExitCode exitCode ++ "): " ++ trimChars stderrLossy))

/-- Embeds the state of `SecretResolver`: the success cache and the failure
cache, both keyed by `SecretReference`. -/
structure ResolverState where
  cache : List (SecretReference × String)
  failures : List (SecretReference × String)
deriving DecidableEq, Repr

/-- Embeds `SecretResolver::new`: both caches start empty. -/
def SecretResolver.new : ResolverState :=
  { cache := [], failures := [] }

/-- The context message `pre_resolve` wraps around a failed resolution:
`failed to resolve secret (provider: .., reference: ..)`. -/
def ctxMessage (secret : SecretReference) : String :=
  "failed to resolve secret (provider: " ++ secret.provider
    ++ ", reference: " ++ secret.reference ++ ")"

/-- Result of one `pre_resolve` call: the final resolver state, the trace
of references for which the provider resolution was invoked (in invocation
order), and the collected error messages (in the order the failures
occurred). -/
structure PreResolveOut where
  state : ResolverState
  invoked : List SecretReference
  errors : List String
deriving DecidableEq, Repr

/-- Embeds the loop of `pre_resolve`, parameterized by the resolution
function applied to each reference (`resolve_secret` in the program; a
parameter here, so a counting fake provider is also an instance).  Each
iteration awaits its invocation before the next begins, hence the
sequential recursion.  A reference already present in either cache is
skipped; a success is inserted into the success cache; a failure's
`to_string` (= the context message) is inserted into the failure cache and
pushed onto the error list. -/
def preResolveGo (resolveFn : SecretReference → Except AnyhowError String) :
    ResolverState → List SecretReference → PreResolveOut
  | s, [] => ⟨s, [], []⟩
  | s, secret :: rest =>
    if mapContains s.cache secret || mapContains s.failures secret then
      preResolveGo resolveFn s rest
    else
      match resolveFn secret with
      | Except.ok value =>
          let out := preResolveGo resolveFn
            { cache := mapInsert s.cache secret value, failures := s.failures } rest
          ⟨out.state, secret :: out.invoked, out.errors⟩
      | Except.error err =>
          let message := (err.withContext (ctxMessage secret)).display
          let out := preResolveGo resolveFn
            { cache := s.cache, failures := mapInsert s.failures secret message } rest
          ⟨out.state, secret :: out.invoked, message :: out.errors⟩

/-- Embeds the aggregated failure message built after the loop:
`failed to resolve {n} secret(s): {messages joined by "; "}`. -/
def aggregatedMessage (errors : List String) : String :=
  "failed to resolve " ++ toString errors.length ++ " secret(s): "
    ++ String.intercalate ("; ") errors

/-- Embeds the return value of `pre_resolve`: `Ok(())` when no failures
occurred, otherwise the aggregated error. -/
def preResolveResult (out : PreResolveOut) : Except String Unit :=
  if out.errors = [] then Except.ok () else Except.error (aggregatedMessage out.errors)

/-- Embeds `SecretResolver::pre_resolve` proper, resolving with
`resolve_secret` over the process facility. -/
def pre_resolve (exec : Exec) (isWindows : Bool) (s : ResolverState)
    (secrets : List SecretReference) : PreResolveOut :=
  preResolveGo (resolve_secret exec isWindows) s secrets

/-- Embeds `SecretResolver::resolve_env_map`: rewrite each entry in
traversal order, short-circuiting at the first problematic entry exactly as
`collect::<Result<HashMap<_, _>>>` does.  `Plain` passes through; `Secret`
is replaced from the success cache; otherwise the call fails with the
failure-cache message or the `not pre-resolved` message.  The method takes
the resolver by shared reference and only reads both caches, so it yields
no new state. -/
def resolve_env_map (s : ResolverState) : EnvMap → Except String EnvMap
  | [] => Except.ok []
  | (key, value) :: rest =>
    match value with
    | EnvValue.Plain v =>
        match resolve_env_map s rest with
        | Except.ok out => Except.ok ((key, EnvValue.Plain v) :: out)
        | Except.error e => Except.error e
    | EnvValue.Secret secret =>
        match mapLookup s.cache secret with
        | some resolvedValue =>
            match resolve_env_map s rest with
            | Except.ok out => Except.ok ((key, EnvValue.Plain resolvedValue) :: out)
            | Except.error e => Except.error e
        | none =>
            match mapLookup s.failures secret with
            | some error =>
                Except.error ("failed to resolve secret for '" ++ key
                  ++ "' (provider: " ++ secret.provider
                  ++ ", reference: " ++ secret.reference ++ "): " ++ error)
            | none =>
                Except.error ("secret not pre-resolved for '" ++ key
                  ++ "' (provider: " ++ secret.provider
                  ++ ", reference: " ++ secret.reference ++ ")")

/-- One call against a shared resolver: a `pre_resolve` batch (with the
process facility's behaviour for that call), or a `resolve_env_map`
rewrite. -/
inductive ResolverOp where
  | pre (exec : Exec) (isWindows : Bool) (secrets : List SecretReference)
  | resolveMap (env : EnvMap)

/-- State transition of one call.  `resolve_env_map` takes `&self` and
performs no insertion or removal on either cache, so its transition is the
identity. -/
def applyOp (s : ResolverState) : ResolverOp → ResolverState
  | ResolverOp.pre exec isWindows secrets => (pre_resolve exec isWindows s secrets).state
  | ResolverOp.resolveMap _ => s

/-- Sequential execution of calls against one resolver. -/
def runOps : ResolverState → List ResolverOp → ResolverState
  | s, [] => s
  | s, op :: rest => runOps (applyOp s op) rest

/-- The guard of the `pre_resolve` loop: the reference is present in the
success cache or the failure cache. -/
def inEitherCache (s : ResolverState) (r : SecretReference) : Bool :=
  mapContains s.cache r || mapContains s.failures r

/-- Tests whether one resolution attempt failed. -/
def resolutionFailed (r : Except AnyhowError String) : Bool :=
  match r with
  | Except.ok _ => false
  | Except.error _ => true

@[simp]
theorem display_withContext (e : AnyhowError) (c : String) :
    (e.withContext c).display = c := rfl

@[simp]
theorem mapLookup_nil {α β : Type} [DecidableEq α] (k : α) :
    mapLookup ([] : List (α × β)) k = none := rfl

@[simp]
theorem mapLookup_insert_self {α β : Type} [DecidableEq α]
    (m : List (α × β)) (k : α) (v : β) :
    mapLookup (mapInsert m k v) k = some v := by
  induction m with
  | nil => simp [mapInsert, mapLookup]
  | cons kv rest ih =>
    obtain ⟨a, b⟩ := kv
    by_cases h : k = a
    · simp [mapInsert, h, mapLookup]
    · simp [mapInsert, h, mapLookup, ih]

theorem mapLookup_insert_ne {α β : Type} [DecidableEq α]
    (m : List (α × β)) (k k' : α) (v : β) (h : k' ≠ k) :
    mapLookup (mapInsert m k v) k' = mapLookup m k' := by
  induction m with
  | nil => simp [mapInsert, mapLookup, h]
  | cons kv rest ih =>
    obtain ⟨a, b⟩ := kv
    by_cases ha : k = a
    · subst ha
      simp [mapInsert, mapLookup, h]
    · by_cases ha' : k' = a
      · simp [mapInsert, mapLookup, ha, ha']
      · simp [mapInsert, mapLookup, ha, ha', ih]

theorem mapContains_insert {α β : Type} [DecidableEq α]
    (m : List (α × β)) (k k' : α) (v : β) :
    mapContains (mapInsert m k v) k' = (k' = k || mapContains m k') := by
  by_cases h : k' = k
  · subst h
    simp [mapContains]
  · simp [mapContains, h, mapLookup_insert_ne m k k' v h]

theorem mapLookup_some_contains {α β : Type} [DecidableEq α]
    (m : List (α × β)) (k : α) (v : β) (h : mapLookup m k = some v) :
    mapContains m k = true := by
  simp [mapContains, h]

/-- Success-cache entries survive the rest of a `pre_resolve` loop with
their values: later insertions are of references absent from the cache. -/
theorem preResolveGo_cache_lookup_mono
    (f : SecretReference → Except AnyhowError String)
    (secrets : List SecretReference) (s : ResolverState)
    (r : SecretReference) (v : String) (h : mapLookup s.cache r = some v) :
    mapLookup (preResolveGo f s secrets).state.cache r = some v := by
  induction secrets generalizing s with
  | nil => simpa [preResolveGo] using h
  | cons secret rest ih =>
    by_cases hc : (mapContains s.cache secret || mapContains s.failures secret) = true
    · simpa [preResolveGo, hc] using ih s h
    · have hne : r ≠ secret := by
        intro he
        subst he
        exact hc (by simp [mapLookup_some_contains s.cache r v h])
      rcases hf : f secret with e | value
      · simpa [preResolveGo, hc, hf] using
          ih { cache := s.cache,
               failures := mapInsert s.failures secret (ctxMessage secret) } h
      · exact by
          simpa [preResolveGo, hc, hf] using
            ih { cache := mapInsert s.cache secret value, failures := s.failures }
              (by rw [mapLookup_insert_ne s.cache secret r value hne]; exact h)

/-- Failure-cache entries survive the rest of a `pre_resolve` loop with
their messages. -/
theorem preResolveGo_failures_lookup_mono
    (f : SecretReference → Except AnyhowError String)
    (secrets : List SecretReference) (s : ResolverState)
    (r : SecretReference) (m : String) (h : mapLookup s.failures r = some m) :
    mapLookup (preResolveGo f s secrets).state.failures r = some m := by
  induction secrets generalizing s with
  | nil => simpa [preResolveGo] using h
  | cons secret rest ih =>
    by_cases hc : (mapContains s.cache secret || mapContains s.failures secret) = true
    · simpa [preResolveGo, hc] using ih s h
    · have hne : r ≠ secret := by
        intro he
        subst he
        exact hc (by simp [mapLookup_some_contains s.failures r m h])
      rcases hf : f secret with e | value
      · simpa [preResolveGo, hc, hf] using
          ih { cache := s.cache,
               failures := mapInsert s.failures secret (ctxMessage secret) }
            (by rw [mapLookup_insert_ne s.failures secret r _ hne]; exact h)
      · simpa [preResolveGo, hc, hf] using
          ih { cache := mapInsert s.cache secret value, failures := s.failures } h

/-- References present in either cache stay present through a
`pre_resolve` loop. -/
theorem preResolveGo_inEither_mono
    (f : SecretReference → Except AnyhowError String)
    (secrets : List SecretReference) (s : ResolverState)
    (r : SecretReference) (h : inEitherCache s r = true) :
    inEitherCache (preResolveGo f s secrets).state r = true := by
  simp only [inEitherCache, Bool.or_eq_true, mapContains, Option.isSome_iff_exists] at h ⊢
  rcases h with ⟨v, hv⟩ | ⟨m, hm⟩
  · exact Or.inl ⟨v, preResolveGo_cache_lookup_mono f secrets s r v hv⟩
  · exact Or.inr ⟨m, preResolveGo_failures_lookup_mono f secrets s r m hm⟩

/-- Characterization of the invocation trace: the provider resolution is
invoked for a reference exactly when it occurs in the input and is in
neither cache at the start of the call. -/
theorem preResolveGo_mem_invoked
    (f : SecretReference → Except AnyhowError String)
    (secrets : List SecretReference) (s : ResolverState) (r : SecretReference) :
    r ∈ (preResolveGo f s secrets).invoked ↔
      (r ∈ secrets ∧ inEitherCache s r = false) := by
  induction secrets generalizing s with
  | nil => simp [preResolveGo]
  | cons secret rest ih =>
    by_cases hc : (mapContains s.cache secret || mapContains s.failures secret) = true
    · rw [show preResolveGo f s (secret :: rest) = preResolveGo f s rest from by
        simp [preResolveGo, hc]]
      rw [ih s]
      by_cases hr : r = secret
      · subst hr
        simp [inEitherCache, hc]
      · simp [List.mem_cons, hr]
    · have hc' : inEitherCache s secret = false := Bool.eq_false_iff.mpr hc
      have hboth := hc'
      simp only [inEitherCache, Bool.or_eq_false_iff] at hboth
      rcases hf : f secret with e | value
      · rw [show (preResolveGo f s (secret :: rest)).invoked =
            secret :: (preResolveGo f
              { cache := s.cache,
                failures := mapInsert s.failures secret (ctxMessage secret) }
              rest).invoked from by simp [preResolveGo, hc, hf]]
        by_cases hr : r = secret
        · subst hr
          simp [hc']
        · rw [List.mem_cons]
          simp only [hr, false_or]
          rw [ih]
          simp [inEitherCache, mapContains_insert, hr, List.mem_cons]
      · rw [show (preResolveGo f s (secret :: rest)).invoked =
            secret :: (preResolveGo f
              { cache := mapInsert s.cache secret value, failures := s.failures }
              rest).invoked from by simp [preResolveGo, hc, hf]]
        by_cases hr : r = secret
        · subst hr
          simp [hc']
        · rw [List.mem_cons]
          simp only [hr, false_or]
          rw [ih]
          simp [inEitherCache, mapContains_insert, hr, List.mem_cons]

/-- The invocation trace has no duplicates: once invoked, a reference is in
a cache and is skipped for the rest of the loop. -/
theorem preResolveGo_invoked_nodup
    (f : SecretReference → Except AnyhowError String)
    (secrets : List SecretReference) (s : ResolverState) :
    (preResolveGo f s secrets).invoked.Nodup := by
  induction secrets generalizing s with
  | nil => simp [preResolveGo]
  | cons secret rest ih =>
    by_cases hc : (mapContains s.cache secret || mapContains s.failures secret) = true
    · simpa [preResolveGo, hc] using ih s
    · rcases hf : f secret with e | value
      · rw [show (preResolveGo f s (secret :: rest)).invoked =
            secret :: (preResolveGo f
              { cache := s.cache,
                failures := mapInsert s.failures secret (ctxMessage secret) }
              rest).invoked from by simp [preResolveGo, hc, hf]]
        refine List.nodup_cons.mpr ⟨?_, ih _⟩
        rw [preResolveGo_mem_invoked]
        rintro ⟨-, habs⟩
        simp [inEitherCache, mapContains_insert] at habs
      · rw [show (preResolveGo f s (secret :: rest)).invoked =
            secret :: (preResolveGo f
              { cache := mapInsert s.cache secret value, failures := s.failures }
              rest).invoked from by simp [preResolveGo, hc, hf]]
        refine List.nodup_cons.mpr ⟨?_, ih _⟩
        rw [preResolveGo_mem_invoked]
        rintro ⟨-, habs⟩
        simp [inEitherCache, mapContains_insert] at habs

/-- The invocation trace is an ordered subsequence of the input list. -/
theorem preResolveGo_invoked_sublist
    (f : SecretReference → Except AnyhowError String)
    (secrets : List SecretReference) (s : ResolverState) :
    (preResolveGo f s secrets).invoked.Sublist secrets := by
  induction secrets generalizing s with
  | nil => simp [preResolveGo]
  | cons secret rest ih =>
    by_cases hc : (mapContains s.cache secret || mapContains s.failures secret) = true
    · rw [show preResolveGo f s (secret :: rest) = preResolveGo f s rest from by
        simp [preResolveGo, hc]]
      exact (ih s).cons secret
    · rcases hf : f secret with e | value
      · rw [show (preResolveGo f s (secret :: rest)).invoked =
            secret :: (preResolveGo f
              { cache := s.cache,
                failures := mapInsert s.failures secret (ctxMessage secret) }
              rest).invoked from by simp [preResolveGo, hc, hf]]
        exact (ih _).cons₂ secret
      · rw [show (preResolveGo f s (secret :: rest)).invoked =
            secret :: (preResolveGo f
              { cache := mapInsert s.cache secret value, failures := s.failures }
              rest).invoked from by simp [preResolveGo, hc, hf]]
        exact (ih _).cons₂ secret

/-- After a `pre_resolve` call every input reference is in one of the two
caches. -/
theorem preResolveGo_mem_state
    (f : SecretReference → Except AnyhowError String)
    (secrets : List SecretReference) (s : ResolverState)
    (r : SecretReference) (h : r ∈ secrets) :
    inEitherCache (preResolveGo f s secrets).state r = true := by
  induction secrets generalizing s with
  | nil => cases h
  | cons secret rest ih =>
    by_cases hc : (mapContains s.cache secret || mapContains s.failures secret) = true
    · rw [show preResolveGo f s (secret :: rest) = preResolveGo f s rest from by
        simp [preResolveGo, hc]]
      rcases List.mem_cons.mp h with he | hm
      · subst he
        exact preResolveGo_inEither_mono f rest s r (by simpa [inEitherCache] using hc)
      · exact ih s hm
    · rcases hf : f secret with e | value
      · rw [show (preResolveGo f s (secret :: rest)).state =
            (preResolveGo f
              { cache := s.cache,
                failures := mapInsert s.failures secret (ctxMessage secret) }
              rest).state from by simp [preResolveGo, hc, hf]]
        rcases List.mem_cons.mp h with he | hm
        · subst he
          exact preResolveGo_inEither_mono f rest _ r
            (by simp [inEitherCache, mapContains_insert])
        · exact ih _ hm
      · rw [show (preResolveGo f s (secret :: rest)).state =
            (preResolveGo f
              { cache := mapInsert s.cache secret value, failures := s.failures }
              rest).state from by simp [preResolveGo, hc, hf]]
        rcases List.mem_cons.mp h with he | hm
        · subst he
          exact preResolveGo_inEither_mono f rest _ r
            (by simp [inEitherCache, mapContains_insert])
        · exact ih _ hm

/-- A batch whose references are all already cached is a no-op: same state,
no invocation, no error. -/
theorem preResolveGo_noop
    (f : SecretReference → Except AnyhowError String)
    (secrets : List SecretReference) (s : ResolverState)
    (h : ∀ r ∈ secrets, inEitherCache s r = true) :
    preResolveGo f s secrets = ⟨s, [], []⟩ := by
  induction secrets with
  | nil => simp [preResolveGo]
  | cons secret rest ih =>
    have hc : (mapContains s.cache secret || mapContains s.failures secret) = true := by
      simpa [inEitherCache] using h secret (List.mem_cons_self secret rest)
    rw [show preResolveGo f s (secret :: rest) = preResolveGo f s rest from by
      simp [preResolveGo, hc]]
    exact ih fun r hr => h r (List.mem_cons_of_mem secret hr)

/-- The collected error messages are exactly the context messages of the
invoked references whose resolution failed, in invocation order. -/
theorem preResolveGo_errors_eq
    (f : SecretReference → Except AnyhowError String)
    (secrets : List SecretReference) (s : ResolverState) :
    (preResolveGo f s secrets).errors =
      ((preResolveGo f s secrets).invoked.filter
        (fun r => resolutionFailed (f r))).map ctxMessage := by
  induction secrets generalizing s with
  | nil => simp [preResolveGo]
  | cons secret rest ih =>
    by_cases hc : (mapContains s.cache secret || mapContains s.failures secret) = true
    · simpa [preResolveGo, hc] using ih s
    · rcases hf : f secret with e | value
      · simpa [preResolveGo, hc, hf, resolutionFailed, List.filter] using ih _
      · simpa [preResolveGo, hc, hf, resolutionFailed, List.filter] using ih _

/-- Every invoked reference that resolved successfully ends up in the
success cache with its resolved value. -/
theorem preResolveGo_ok_cached
    (f : SecretReference → Except AnyhowError String)
    (secrets : List SecretReference) (s : ResolverState)
    (r : SecretReference) (v : String)
    (hmem : r ∈ (preResolveGo f s secrets).invoked) (hok : f r = Except.ok v) :
    mapLookup (preResolveGo f s secrets).state.cache r = some v := by
  induction secrets generalizing s with
  | nil => simp [preResolveGo] at hmem
  | cons secret rest ih =>
    by_cases hc : (mapContains s.cache secret || mapContains s.failures secret) = true
    · rw [show preResolveGo f s (secret :: rest) = preResolveGo f s rest from by
        simp [preResolveGo, hc]] at hmem ⊢
      exact ih s hmem
    · rcases hf : f secret with e | value
      · have hne : r ≠ secret := fun he => by rw [he, hf] at hok; cases hok
        rw [show preResolveGo f s (secret :: rest) = ⟨(preResolveGo f
              { cache := s.cache,
                failures := mapInsert s.failures secret (ctxMessage secret) }
              rest).state,
            secret :: (preResolveGo f
              { cache := s.cache,
                failures := mapInsert s.failures secret (ctxMessage secret) }
              rest).invoked,
            ctxMessage secret :: (preResolveGo f
              { cache := s.cache,
                failures := mapInsert s.failures secret (ctxMessage secret) }
              rest).errors⟩ from by simp [preResolveGo, hc, hf]] at hmem ⊢
        rcases List.mem_cons.mp hmem with he | hm
        · exact absurd he hne
        · exact ih _ hm
      · rw [show preResolveGo f s (secret :: rest) = ⟨(preResolveGo f
              { cache := mapInsert s.cache secret value, failures := s.failures }
              rest).state,
            secret :: (preResolveGo f
              { cache := mapInsert s.cache secret value, failures := s.failures }
              rest).invoked,
            (preResolveGo f
              { cache := mapInsert s.cache secret value, failures := s.failures }
              rest).errors⟩ from by simp [preResolveGo, hc, hf]] at hmem ⊢
        rcases List.mem_cons.mp hmem with he | hm
        · subst he
          have hv : value = v := by rw [hf] at hok; cases hok; rfl
          subst hv
          exact preResolveGo_cache_lookup_mono f rest _ r value (by simp)
        · exact ih _ hm

/-- Every invoked reference that failed ends up in the failure cache with
the context message naming its provider and reference. -/
theorem preResolveGo_err_recorded
    (f : SecretReference → Except AnyhowError String)
    (secrets : List SecretReference) (s : ResolverState)
    (r : SecretReference)
    (hmem : r ∈ (preResolveGo f s secrets).invoked)
    (herr : resolutionFailed (f r) = true) :
    mapLookup (preResolveGo f s secrets).state.failures r = some (ctxMessage r) := by
  induction secrets generalizing s with
  | nil => simp [preResolveGo] at hmem
  | cons secret rest ih =>
    by_cases hc : (mapContains s.cache secret || mapContains s.failures secret) = true
    · rw [show preResolveGo f s (secret :: rest) = preResolveGo f s rest from by
        simp [preResolveGo, hc]] at hmem ⊢
      exact ih s hmem
    · rcases hf : f secret with e | value
      · rw [show preResolveGo f s (secret :: rest) = ⟨(preResolveGo f
              { cache := s.cache,
                failures := mapInsert s.failures secret (ctxMessage secret) }
              rest).state,
            secret :: (preResolveGo f
              { cache := s.cache,
                failures := mapInsert s.failures secret (ctxMessage secret) }
              rest).invoked,
            ctxMessage secret :: (preResolveGo f
              { cache := s.cache,
                failures := mapInsert s.failures secret (ctxMessage secret) }
              rest).errors⟩ from by simp [preResolveGo, hc, hf]] at hmem ⊢
        rcases List.mem_cons.mp hmem with he | hm
        · subst he
          exact preResolveGo_failures_lookup_mono f rest _ r (ctxMessage r) (by simp)
        · exact ih _ hm
      · have hne : r ≠ secret := fun he => by
          rw [he, hf] at herr
          simp [resolutionFailed] at herr
        rw [show preResolveGo f s (secret :: rest) = ⟨(preResolveGo f
              { cache := mapInsert s.cache secret value, failures := s.failures }
              rest).state,
            secret :: (preResolveGo f
              { cache := mapInsert s.cache secret value, failures := s.failures }
              rest).invoked,
            (preResolveGo f
              { cache := mapInsert s.cache secret value, failures := s.failures }
              rest).errors⟩ from by simp [preResolveGo, hc, hf]] at hmem ⊢
        rcases List.mem_cons.mp hmem with he | hm
        · exact absurd he hne
        · exact ih _ hm

/-- Key-set disjointness of the two caches is preserved by one
`pre_resolve` loop. -/
theorem preResolveGo_disjoint
    (f : SecretReference → Except AnyhowError String)
    (secrets : List SecretReference) (s : ResolverState)
    (h : ∀ r, (mapContains s.cache r && mapContains s.failures r) = false) :
    ∀ r, (mapContains (preResolveGo f s secrets).state.cache r
      && mapContains (preResolveGo f s secrets).state.failures r) = false := by
  induction secrets generalizing s with
  | nil => simpa [preResolveGo] using h
  | cons secret rest ih =>
    by_cases hc : (mapContains s.cache secret || mapContains s.failures secret) = true
    · rw [show preResolveGo f s (secret :: rest) = preResolveGo f s rest from by
        simp [preResolveGo, hc]]
      exact ih s h
    · have hboth : mapContains s.cache secret = false
          ∧ mapContains s.failures secret = false := by
        constructor <;>
          [exact Bool.eq_false_iff.mpr fun ht => hc (by simp [ht]);
           exact Bool.eq_false_iff.mpr fun ht => hc (by simp [ht])]
      rcases hf : f secret with e | value
      · rw [show (preResolveGo f s (secret :: rest)).state =
            (preResolveGo f
              { cache := s.cache,
                failures := mapInsert s.failures secret (ctxMessage secret) }
              rest).state from by simp [preResolveGo, hc, hf]]
        refine ih _ fun r => ?_
        by_cases hr : r = secret
        · subst hr
          simp [mapContains_insert, hboth.1]
        · simp [mapContains_insert, hr, h r]
      · rw [show (preResolveGo f s (secret :: rest)).state =
            (preResolveGo f
              { cache := mapInsert s.cache secret value, failures := s.failures }
              rest).state from by simp [preResolveGo, hc, hf]]
        refine ih _ fun r => ?_
        by_cases hr : r = secret
        · subst hr
          simp [mapContains_insert, hboth.2]
        · simp [mapContains_insert, hr, h r]

/-- Success-cache entries survive any sequence of resolver calls. -/
theorem runOps_cache_lookup_mono (ops : List ResolverOp) (s : ResolverState)
    (r : SecretReference) (v : String) (h : mapLookup s.cache r = some v) :
    mapLookup (runOps s ops).cache r = some v := by
  induction ops generalizing s with
  | nil => exact h
  | cons op rest ih =>
    cases op with
    | pre exec isWindows secrets =>
        exact ih _ (preResolveGo_cache_lookup_mono _ secrets s r v h)
    | resolveMap env => exact ih s h

/-- Failure-cache entries survive any sequence of resolver calls. -/
theorem runOps_failures_lookup_mono (ops : List ResolverOp) (s : ResolverState)
    (r : SecretReference) (m : String) (h : mapLookup s.failures r = some m) :
    mapLookup (runOps s ops).failures r = some m := by
  induction ops generalizing s with
  | nil => exact h
  | cons op rest ih =>
    cases op with
    | pre exec isWindows secrets =>
        exact ih _ (preResolveGo_failures_lookup_mono _ secrets s r m h)
    | resolveMap env => exact ih s h

/-- Cache key-set disjointness is preserved by any sequence of resolver
calls. -/
theorem runOps_disjoint (ops : List ResolverOp) (s : ResolverState)
    (h : ∀ r, (mapContains s.cache r && mapContains s.failures r) = false) :
    ∀ r, (mapContains (runOps s ops).cache r
      && mapContains (runOps s ops).failures r) = false := by
  induction ops generalizing s with
  | nil => exact h
  | cons op rest ih =>
    cases op with
    | pre exec isWindows secrets => exact ih _ (preResolveGo_disjoint _ secrets s h)
    | resolveMap env => exact ih s h

@[simp]
theorem as_secret_eq_some (v : EnvValue) (r : SecretReference) :
    v.as_secret = some r ↔ v = EnvValue.Secret r := by
  cases v <;> simp [EnvValue.as_secret]

/-- Occurrence counting for `collect_secrets`: one occurrence per map entry
whose value is the `Secret` variant of the reference. -/
theorem collect_secrets_count (env : EnvMap) (r : SecretReference) :
    (collect_secrets env).count r
      = env.countP (fun kv => kv.2 = EnvValue.Secret r) := by
  induction env with
  | nil => simp [collect_secrets]
  | cons kv rest ih =>
    obtain ⟨k, v⟩ := kv
    cases v with
    | Plain s => simpa [collect_secrets, EnvValue.as_secret, List.countP_cons] using ih
    | Secret r0 =>
      by_cases hr : r0 = r
      · subst hr
        simpa [collect_secrets, EnvValue.as_secret, List.countP_cons, List.count_cons]
          using ih
      · simpa [collect_secrets, EnvValue.as_secret, List.countP_cons, List.count_cons, hr,
          Ne.symm hr] using ih

/-- When every `Secret` entry is in the success cache, the rewrite succeeds
and substitutes each cached value pointwise. -/
theorem resolve_env_map_all_cached (s : ResolverState) (env : EnvMap)
    (h : ∀ k r, (k, EnvValue.Secret r) ∈ env → mapContains s.cache r = true) :
    resolve_env_map s env = Except.ok (env.map (fun kv =>
      match kv.2 with
      | EnvValue.Plain v => (kv.1, EnvValue.Plain v)
      | EnvValue.Secret r => (kv.1, EnvValue.Plain ((mapLookup s.cache r).getD (""))))) := by
  induction env with
  | nil => simp [resolve_env_map]
  | cons kv rest ih =>
    obtain ⟨key, value⟩ := kv
    have hrest := ih fun k r hk => h k r (List.mem_cons_of_mem _ hk)
    cases value with
    | Plain v => simp [resolve_env_map, hrest]
    | Secret r =>
      have hc : mapContains s.cache r = true :=
        h key r (List.mem_cons_self _ _)
      obtain ⟨v, hv⟩ := Option.isSome_iff_exists.mp (by simpa [mapContains] using hc)
      simp [resolve_env_map, hrest, hv]

/-- The rewrite aborts at the first entry (in traversal order) whose secret
is not in the success cache, with the failure-cache message when one
exists and the `not pre-resolved` message otherwise. -/
theorem resolve_env_map_abort (s : ResolverState) (k : String)
    (r : SecretReference) (pre post : EnvMap)
    (hpre : ∀ k' r', (k', EnvValue.Secret r') ∈ pre → mapContains s.cache r' = true)
    (hmiss : mapLookup s.cache r = none) :
    (∀ msg, mapLookup s.failures r = some msg →
      resolve_env_map s (pre ++ (k, EnvValue.Secret r) :: post)
        = Except.error ("failed to resolve secret for '" ++ k
            ++ "' (provider: " ++ r.provider
            ++ ", reference: " ++ r.reference ++ "): " ++ msg))
    ∧ (mapLookup s.failures r = none →
      resolve_env_map s (pre ++ (k, EnvValue.Secret r) :: post)
        = Except.error ("secret not pre-resolved for '" ++ k
            ++ "' (provider: " ++ r.provider
            ++ ", reference: " ++ r.reference ++ ")")) := by
  induction pre with
  | nil =>
    constructor
    · intro msg hmsg
      simp [resolve_env_map, hmiss, hmsg]
    · intro hnone
      simp [resolve_env_map, hmiss, hnone]
  | cons kv pre' ih =>
    obtain ⟨key, value⟩ := kv
    have ih' := ih fun k' r' hk => hpre k' r' (List.mem_cons_of_mem _ hk)
    cases value with
    | Plain v =>
      constructor
      · intro msg hmsg
        simp [resolve_env_map, ih'.1 msg hmsg]
      · intro hnone
        simp [resolve_env_map, ih'.2 hnone]
    | Secret r0 =>
      have hc : mapContains s.cache r0 = true :=
        hpre key r0 (List.mem_cons_self _ _)
      obtain ⟨v, hv⟩ := Option.isSome_iff_exists.mp (by simpa [mapContains] using hc)
      constructor
      · intro msg hmsg
        simp [resolve_env_map, hv, ih'.1 msg hmsg]
      · intro hnone
        simp [resolve_env_map, hv, ih'.2 hnone]

/-- Claim C1, counterexample: `collect_secrets` does not deduplicate.  On
the two-key env map sending both `A` and `B` to the same secret reference
(a well-formed map: the keys are distinct), it returns the reference
twice, so the result has duplicate entries, contradicting the claimed set
semantics. -/
theorem collect_secrets_duplicates_counterexample :
    ([("A", EnvValue.Secret ⟨"1password", "op://v/i/f"⟩),
      ("B", EnvValue.Secret ⟨"1password", "op://v/i/f"⟩)].map Prod.fst).Nodup
    ∧ collect_secrets
        [("A", EnvValue.Secret ⟨"1password", "op://v/i/f"⟩),
         ("B", EnvValue.Secret ⟨"1password", "op://v/i/f"⟩)]
      = [⟨"1password", "op://v/i/f"⟩, ⟨"1password", "op://v/i/f"⟩]
    ∧ ¬ (collect_secrets
        [("A", EnvValue.Secret ⟨"1password", "op://v/i/f"⟩),
         ("B", EnvValue.Secret ⟨"1password", "op://v/i/f"⟩)]).Nodup := by
  refine ⟨by decide, rfl, by decide⟩

/-- Claim C1, amended: for every env map, `collect_secrets` returns the
references appearing as `Secret` variants among the map's values with one
occurrence per map entry — so a reference appearing under several keys
appears several times (duplicates are not coalesced), and the set of
returned references is exactly the set of references appearing as `Secret`
variants. -/
theorem collect_secrets_values (env : EnvMap) :
    (∀ r : SecretReference,
      r ∈ collect_secrets env ↔ ∃ k, (k, EnvValue.Secret r) ∈ env)
    ∧ ∀ r : SecretReference,
      (collect_secrets env).count r
        = env.countP (fun kv => kv.2 = EnvValue.Secret r) := by
  constructor
  · intro r
    simp only [collect_secrets, List.mem_filterMap, List.mem_map, as_secret_eq_some]
    constructor
    · rintro ⟨v, ⟨⟨k, v'⟩, hk, rfl⟩, rfl⟩
      exact ⟨k, hk⟩
    · rintro ⟨k, hk⟩
      exact ⟨EnvValue.Secret r, ⟨(k, EnvValue.Secret r), hk, rfl⟩, rfl⟩
  · exact collect_secrets_count env

/-- Claim C2: within one `pre_resolve` call the provider resolution is
invoked once per processed reference, sequentially: the trace of
invocations is a duplicate-free ordered subsequence of the input, and a
reference is invoked exactly when it occurs in the input and is in neither
the success cache nor the failure cache at the start of the call.  (The
loop awaits each invocation before the next iteration, which the
sequential recursion embeds; no two invocations of one call overlap.) -/
theorem pre_resolve_sequential_invocations (exec : Exec) (isWindows : Bool)
    (s : ResolverState) (secrets : List SecretReference) :
    (pre_resolve exec isWindows s secrets).invoked.Sublist secrets
    ∧ (pre_resolve exec isWindows s secrets).invoked.Nodup
    ∧ ∀ r, r ∈ (pre_resolve exec isWindows s secrets).invoked ↔
        (r ∈ secrets ∧ mapContains s.cache r = false
          ∧ mapContains s.failures r = false) := by
  refine ⟨preResolveGo_invoked_sublist _ _ _, preResolveGo_invoked_nodup _ _ _,
    fun r => ?_⟩
  rw [pre_resolve, preResolveGo_mem_invoked]
  simp [inEitherCache, Bool.or_eq_false_iff, and_assoc]

/-- Claim C2, instantiated: with a provider facility answering every
invocation successfully and the reference list `[a, b, a]` against a fresh
resolver, the invocation trace is `[a, b]` — in input order, without the
duplicate. -/
theorem pre_resolve_sequential_invocations_witness :
    (pre_resolve (fun _ _ => ExecResult.completed (some 0)
        (Utf8Bytes.valid ("v")) (""))
      false SecretResolver.new
      [⟨"1password", "a"⟩, ⟨"1password", "b"⟩, ⟨"1password", "a"⟩]).invoked
        = [⟨"1password", "a"⟩, ⟨"1password", "b"⟩]
    ∧ (⟨"1password", "a"⟩ : SecretReference) ∈
        (pre_resolve (fun _ _ => ExecResult.completed (some 0)
            (Utf8Bytes.valid ("v")) (""))
          false SecretResolver.new
          [⟨"1password", "a"⟩, ⟨"1password", "b"⟩, ⟨"1password", "a"⟩]).invoked := by
  refine ⟨by decide, ?_⟩
  exact ((pre_resolve_sequential_invocations
      (fun _ _ => ExecResult.completed (some 0) (Utf8Bytes.valid ("v")) (""))
      false SecretResolver.new
      [⟨"1password", "a"⟩, ⟨"1password", "b"⟩, ⟨"1password", "a"⟩]).2.2
    ⟨"1password", "a"⟩).mpr ⟨by decide, by decide, by decide⟩

/-- Claim C3: references already present in either cache are skipped
without a provider invocation; after one `pre_resolve` call every input
reference is cached, so repeating the call with the identical list invokes
the provider zero further times, leaves both caches unchanged, and returns
success — across the two calls each reference not initially cached is
invoked exactly once, an initially cached one zero times. -/
theorem pre_resolve_idempotent (exec : Exec) (isWindows : Bool)
    (s : ResolverState) (secrets : List SecretReference) :
    (∀ r, inEitherCache s r = true →
      r ∉ (pre_resolve exec isWindows s secrets).invoked)
    ∧ pre_resolve exec isWindows
        (pre_resolve exec isWindows s secrets).state secrets
      = ⟨(pre_resolve exec isWindows s secrets).state, [], []⟩
    ∧ preResolveResult (pre_resolve exec isWindows
        (pre_resolve exec isWindows s secrets).state secrets) = Except.ok ()
    ∧ ∀ r ∈ secrets,
        ((pre_resolve exec isWindows s secrets).invoked
          ++ (pre_resolve exec isWindows
                (pre_resolve exec isWindows s secrets).state secrets).invoked).count r
        = (if inEitherCache s r then 0 else 1) := by
  have hnoop : pre_resolve exec isWindows
      (pre_resolve exec isWindows s secrets).state secrets
      = ⟨(pre_resolve exec isWindows s secrets).state, [], []⟩ :=
    preResolveGo_noop _ secrets _
      (fun r hr => preResolveGo_mem_state _ secrets s r hr)
  refine ⟨?_, hnoop, ?_, ?_⟩
  · intro r hin hmem
    rw [pre_resolve, preResolveGo_mem_invoked] at hmem
    rw [hmem.2] at hin
    cases hin
  · rw [hnoop]
    simp [preResolveResult]
  · intro r hr
    rw [hnoop]
    simp only [List.count_append]
    by_cases hin : inEitherCache s r = true
    · have : r ∉ (pre_resolve exec isWindows s secrets).invoked := by
        rw [pre_resolve, preResolveGo_mem_invoked]
        rintro ⟨-, habs⟩
        rw [hin] at habs
        cases habs
      simp [hin, List.count_eq_zero.mpr this, List.count_nil]
    · have hin' : inEitherCache s r = false := Bool.eq_false_iff.mpr hin
      have hmem : r ∈ (pre_resolve exec isWindows s secrets).invoked := by
        rw [pre_resolve, preResolveGo_mem_invoked]
        exact ⟨hr, hin'⟩
      have hone := List.count_eq_one_of_mem
        (preResolveGo_invoked_nodup (resolve_secret exec isWindows) secrets s) hmem
      simp only [pre_resolve] at hone ⊢
      simp [hin', hone, List.count_nil]

/-- Claim C3, instantiated: pre-resolving `[a]` twice against a fresh
resolver with an always-succeeding provider invokes the provider exactly
once for `a`; the second call performs no invocation, changes nothing and
succeeds. -/
theorem pre_resolve_idempotent_witness :
    pre_resolve (fun _ _ => ExecResult.completed (some 0)
        (Utf8Bytes.valid ("v")) (""))
      false
      (pre_resolve (fun _ _ => ExecResult.completed (some 0)
          (Utf8Bytes.valid ("v")) (""))
        false SecretResolver.new [⟨"1password", "a"⟩]).state
      [⟨"1password", "a"⟩]
    = ⟨(pre_resolve (fun _ _ => ExecResult.completed (some 0)
          (Utf8Bytes.valid ("v")) (""))
        false SecretResolver.new [⟨"1password", "a"⟩]).state, [], []⟩
    ∧ ((pre_resolve (fun _ _ => ExecResult.completed (some 0)
          (Utf8Bytes.valid ("v")) (""))
        false SecretResolver.new [⟨"1password", "a"⟩]).invoked
      ++ (pre_resolve (fun _ _ => ExecResult.completed (some 0)
            (Utf8Bytes.valid ("v")) (""))
          false
          (pre_resolve (fun _ _ => ExecResult.completed (some 0)
              (Utf8Bytes.valid ("v")) (""))
            false SecretResolver.new [⟨"1password", "a"⟩]).state
          [⟨"1password", "a"⟩]).invoked).count ⟨"1password", "a"⟩ = 1 := by
  have h := pre_resolve_idempotent
    (fun _ _ => ExecResult.completed (some 0) (Utf8Bytes.valid ("v")) (""))
    false SecretResolver.new [⟨"1password", "a"⟩]
  refine ⟨h.2.1, ?_⟩
  have hc := h.2.2.2 ⟨"1password", "a"⟩ (by decide)
  simpa [inEitherCache, SecretResolver.new, mapContains, mapLookup] using hc

/-- Claim C4: when failures occur, `pre_resolve` still processes the whole
batch and returns the single aggregated error stating the failure count
and the per-reference messages semicolon-joined in failure order; every
successful resolution of the batch is in the success cache, and no
pre-existing cache entry is lost. -/
theorem pre_resolve_aggregates_failures (exec : Exec) (isWindows : Bool)
    (s : ResolverState) (secrets : List SecretReference)
    (h : (pre_resolve exec isWindows s secrets).errors ≠ []) :
    preResolveResult (pre_resolve exec isWindows s secrets)
      = Except.error ("failed to resolve "
          ++ toString (pre_resolve exec isWindows s secrets).errors.length
          ++ " secret(s): "
          ++ String.intercalate ("; ") (pre_resolve exec isWindows s secrets).errors)
    ∧ (pre_resolve exec isWindows s secrets).errors
        = ((pre_resolve exec isWindows s secrets).invoked.filter
            (fun r => resolutionFailed (resolve_secret exec isWindows r))).map
          ctxMessage
    ∧ (∀ r v, r ∈ (pre_resolve exec isWindows s secrets).invoked →
        resolve_secret exec isWindows r = Except.ok v →
        mapLookup (pre_resolve exec isWindows s secrets).state.cache r = some v)
    ∧ (∀ r v, mapLookup s.cache r = some v →
        mapLookup (pre_resolve exec isWindows s secrets).state.cache r = some v) := by
  refine ⟨?_, preResolveGo_errors_eq _ secrets s,
    fun r v hm ho => preResolveGo_ok_cached _ secrets s r v hm ho,
    fun r v hv => preResolveGo_cache_lookup_mono _ secrets s r v hv⟩
  simp [preResolveResult, h, aggregatedMessage]

/-- Claim C4, instantiated: the spec's example — references
`[a (succeeds), b (fails), c (succeeds)]` against a fresh resolver — ends
with `a` and `c` in the success cache, `b` in the failure cache, and the
call reporting exactly one failed secret. -/
theorem pre_resolve_aggregates_failures_witness :
    preResolveResult (pre_resolve
        (fun _ args => if args = ["read", "b"] then
            ExecResult.completed (some 1) (Utf8Bytes.valid ("")) ("bad")
          else ExecResult.completed (some 0) (Utf8Bytes.valid ("v")) (""))
        false SecretResolver.new
        [⟨"1password", "a"⟩, ⟨"1password", "b"⟩, ⟨"1password", "c"⟩])
      = Except.error
          ("failed to resolve 1 secret(s): failed to resolve secret (provider: 1password, reference: b)")
    ∧ mapLookup (pre_resolve
        (fun _ args => if args = ["read", "b"] then
            ExecResult.completed (some 1) (Utf8Bytes.valid ("")) ("bad")
          else ExecResult.completed (some 0) (Utf8Bytes.valid ("v")) (""))
        false SecretResolver.new
        [⟨"1password", "a"⟩, ⟨"1password", "b"⟩, ⟨"1password", "c"⟩]).state.cache
        ⟨"1password", "a"⟩ = some ("v")
    ∧ mapLookup (pre_resolve
        (fun _ args => if args = ["read", "b"] then
            ExecResult.completed (some 1) (Utf8Bytes.valid ("")) ("bad")
          else ExecResult.completed (some 0) (Utf8Bytes.valid ("v")) (""))
        false SecretResolver.new
        [⟨"1password", "a"⟩, ⟨"1password", "b"⟩, ⟨"1password", "c"⟩]).state.failures
        ⟨"1password", "b"⟩
      = some ("failed to resolve secret (provider: 1password, reference: b)") := by
  have h := pre_resolve_aggregates_failures
    (fun _ args => if args = ["read", "b"] then
        ExecResult.completed (some 1) (Utf8Bytes.valid ("")) ("bad")
      else ExecResult.completed (some 0) (Utf8Bytes.valid ("v")) (""))
    false SecretResolver.new
    [⟨"1password", "a"⟩, ⟨"1password", "b"⟩, ⟨"1password", "c"⟩]
    (by decide)
  exact ⟨h.1.trans (by rfl), by decide, by decide⟩

/-- Claim C5: when every `Secret` entry of the env map is in the success
cache, `resolve_env_map` succeeds and returns the map with `Plain` values
unchanged and each `Secret` replaced by `Plain` of its cached value; in
particular a map without `Secret` entries is returned identically. -/
theorem resolve_env_map_substitutes (s : ResolverState) (env : EnvMap) :
    ((∀ k r, (k, EnvValue.Secret r) ∈ env → mapContains s.cache r = true) →
      resolve_env_map s env = Except.ok (env.map (fun kv =>
        match kv.2 with
        | EnvValue.Plain v => (kv.1, EnvValue.Plain v)
        | EnvValue.Secret r =>
            (kv.1, EnvValue.Plain ((mapLookup s.cache r).getD (""))))))
    ∧ ((∀ kv ∈ env, kv.2.as_secret = none) → resolve_env_map s env = Except.ok env) := by
  constructor
  · exact resolve_env_map_all_cached s env
  · intro hplain
    have hnone : ∀ k r, (k, EnvValue.Secret r) ∈ env → mapContains s.cache r = true := by
      intro k r hk
      have := hplain (k, EnvValue.Secret r) hk
      simp [EnvValue.as_secret] at this
    rw [resolve_env_map_all_cached s env hnone]
    congr 1
    refine List.map_congr_left ?_ |>.trans (List.map_id env)
    intro kv hkv
    obtain ⟨k, v⟩ := kv
    cases v with
    | Plain p => rfl
    | Secret r =>
        have := hplain (k, EnvValue.Secret r) hkv
        simp [EnvValue.as_secret] at this

/-- Claim C5, instantiated: with the reference cached as `sk-123` (already
trimmed by resolution), the map sending `TOKEN` to that secret becomes
exactly the map sending `TOKEN` to `Plain sk-123`; an all-plain map is
returned identically. -/
theorem resolve_env_map_substitutes_witness :
    resolve_env_map
      { cache := [(⟨"1password", "op://v/i/f"⟩, "sk-123")], failures := [] }
      [("TOKEN", EnvValue.Secret ⟨"1password", "op://v/i/f"⟩)]
      = Except.ok [("TOKEN", EnvValue.Plain ("sk-123"))]
    ∧ resolve_env_map
      { cache := [(⟨"1password", "op://v/i/f"⟩, "sk-123")], failures := [] }
      [("HOME", EnvValue.Plain ("/root")), ("SHELL", EnvValue.Plain ("sh"))]
      = Except.ok [("HOME", EnvValue.Plain ("/root")), ("SHELL", EnvValue.Plain ("sh"))] := by
  constructor
  · exact ((resolve_env_map_substitutes
      { cache := [(⟨"1password", "op://v/i/f"⟩, "sk-123")], failures := [] }
      [("TOKEN", EnvValue.Secret ⟨"1password", "op://v/i/f"⟩)]).1
        (by
          intro k r hk
          simp only [List.mem_singleton, Prod.mk.injEq, EnvValue.Secret.injEq] at hk
          obtain ⟨-, rfl⟩ := hk
          decide)).trans (by rfl)
  · exact (resolve_env_map_substitutes
      { cache := [(⟨"1password", "op://v/i/f"⟩, "sk-123")], failures := [] }
      [("HOME", EnvValue.Plain ("/root")), ("SHELL", EnvValue.Plain ("sh"))]).2
        (by decide)

/-- Claim C6: `resolve_env_map` is fail-fast.  At the first entry (in
traversal order) whose secret is not in the success cache, the whole
rewrite aborts with an error and no partial map: the error names the
configuration key, provider, reference and the cached failure message when
the reference is in the failure cache, and is the distinct
`not pre-resolved` message with the same identifying fields when the
reference is in neither cache. -/
theorem resolve_env_map_fail_fast (s : ResolverState) (k : String)
    (r : SecretReference) (pre post : EnvMap)
    (hpre : ∀ k' r', (k', EnvValue.Secret r') ∈ pre → mapContains s.cache r' = true)
    (hmiss : mapLookup s.cache r = none) :
    (∀ msg, mapLookup s.failures r = some msg →
      resolve_env_map s (pre ++ (k, EnvValue.Secret r) :: post)
        = Except.error ("failed to resolve secret for '" ++ k
            ++ "' (provider: " ++ r.provider
            ++ ", reference: " ++ r.reference ++ "): " ++ msg))
    ∧ (mapLookup s.failures r = none →
      resolve_env_map s (pre ++ (k, EnvValue.Secret r) :: post)
        = Except.error ("secret not pre-resolved for '" ++ k
            ++ "' (provider: " ++ r.provider
            ++ ", reference: " ++ r.reference ++ ")")) :=
  resolve_env_map_abort s k r pre post hpre hmiss

/-- Claim C6, instantiated: an unresolved `Secret` entry under key
`API_KEY` that was never pre-resolved aborts the rewrite with the
`not pre-resolved` message naming `API_KEY` and the provider; a
failure-cached reference aborts it with the cached message. -/
theorem resolve_env_map_fail_fast_witness :
    resolve_env_map SecretResolver.new
      [("API_KEY", EnvValue.Secret ⟨"1password", "op://v/i/f"⟩),
       ("HOME", EnvValue.Plain ("/root"))]
      = Except.error
          ("secret not pre-resolved for 'API_KEY' (provider: 1password, reference: op://v/i/f)")
    ∧ resolve_env_map
        { cache := [], failures := [(⟨"1password", "op://v/i/f"⟩, "boom")] }
        [("API_KEY", EnvValue.Secret ⟨"1password", "op://v/i/f"⟩)]
      = Except.error
          ("failed to resolve secret for 'API_KEY' (provider: 1password, reference: op://v/i/f): boom") := by
  constructor
  · exact (resolve_env_map_fail_fast SecretResolver.new "API_KEY"
      ⟨"1password", "op://v/i/f"⟩ []
      [("HOME", EnvValue.Plain ("/root"))] (by simp) (by decide)).2 (by decide)
  · exact (resolve_env_map_fail_fast
      { cache := [], failures := [(⟨"1password", "op://v/i/f"⟩, "boom")] }
      "API_KEY" ⟨"1password", "op://v/i/f"⟩ [] [] (by simp) (by decide)).1
      "boom" (by decide)

/-- Claim C7: `provider_command` dispatches case-sensitively on the exact
provider string: `1password` to `op read <reference>` on both platforms;
`pass` to `pass show <reference>` on POSIX and to the explicit
`not supported on Windows` failure on Windows; `command` to
`sh -c <reference>` on POSIX and to non-interactive `pwsh` with the
reference passed verbatim on Windows; and any other provider string to the
`unsupported secret provider` failure naming that string. -/
theorem provider_command_dispatch (isWindows : Bool) (reference : String) :
    provider_command isWindows ⟨"1password", reference⟩
        = Except.ok ("op", ["read", reference])
    ∧ provider_command false ⟨"pass", reference⟩
        = Except.ok ("pass", ["show", reference])
    ∧ provider_command true ⟨"pass", reference⟩
        = Except.error (anyhowNew ("secret provider 'pass' is not supported on Windows"))
    ∧ provider_command false ⟨"command", reference⟩
        = Except.ok ("sh", ["-c", reference])
    ∧ provider_command true ⟨"command", reference⟩
        = Except.ok ("pwsh",
            ["-NoLogo", "-NoProfile", "-NonInteractive", "-Command", reference])
    ∧ ∀ p : String, p ≠ "1password" → p ≠ "pass" → p ≠ "command" →
        provider_command isWindows ⟨p, reference⟩
          = Except.error (anyhowNew ("unsupported secret provider: '" ++ p ++ "'")) := by
  refine ⟨by simp [provider_command], by simp [provider_command, pass_command],
    by simp [provider_command, pass_command],
    by simp [provider_command, shell_command],
    by simp [provider_command, shell_command], ?_⟩
  intro p h1 h2 h3
  simp [provider_command, h1, h2, h3]

/-- Claim C7, instantiated: the spec's dispatch-table examples, including
the rejection of the unknown provider string. -/
theorem provider_command_dispatch_witness :
    provider_command false ⟨"1password", "op://v/i/f"⟩
        = Except.ok ("op", ["read", "op://v/i/f"])
    ∧ provider_command false ⟨"unknown", "x"⟩
        = Except.error (anyhowNew ("unsupported secret provider: 'unknown'")) := by
  refine ⟨(provider_command_dispatch false "op://v/i/f").1, ?_⟩
  exact (provider_command_dispatch false "x").2.2.2.2.2 "unknown"
    (by decide) (by decide) (by decide)

set_option maxRecDepth 4000 in
/-- Claim C8, counterexample: with the provider exiting with code 7 and
stderr `boom`, the message recorded in the failure cache is the context
line naming only the provider and reference — `Error::to_string` on the
context-wrapped error prints the outermost message only — so the recorded
message contains neither the exit code `7` nor the trimmed stderr `boom`
(both appear only in the wrapped source error). -/
theorem recorded_failure_message_counterexample :
    mapLookup (pre_resolve
        (fun _ _ => ExecResult.completed (some 7) (Utf8Bytes.valid ("")) ("boom\n"))
        false SecretResolver.new [⟨"1password", "op://v/i/f"⟩]).state.failures
        ⟨"1password", "op://v/i/f"⟩
      = some ("failed to resolve secret (provider: 1password, reference: op://v/i/f)")
    ∧ resolve_secret
        (fun _ _ => ExecResult.completed (some 7) (Utf8Bytes.valid ("")) ("boom\n"))
        false ⟨"1password", "op://v/i/f"⟩
      = Except.error (anyhowNew
          ("secret provider '1password' failed (exit code Some(7)): boom"))
    ∧ ¬ ("boom".data <:+:
        ("failed to resolve secret (provider: 1password, reference: op://v/i/f)").data)
    ∧ ¬ ("7".data <:+:
        ("failed to resolve secret (provider: 1password, reference: op://v/i/f)").data) := by
  refine ⟨by decide, by rfl, by decide, by decide⟩

/-- Claim C8, amended: on zero exit with UTF-8 stdout the success cache
stores the stdout trimmed of surrounding whitespace; on non-zero exit the
error produced by the provider invocation contains the exit code and the
trimmed stderr, while the message recorded in the failure cache is the
context line naming provider and reference (the cause stays in the wrapped
source error, which `to_string` does not print); stdout that is not valid
UTF-8 is recorded as a failure, never as a cached value. -/
theorem provider_outcome_handling (exec : Exec) (isWindows : Bool)
    (secret : SecretReference) (program : String) (args : List String)
    (exitCode : Option Int) (stdout : Utf8Bytes) (stderrLossy : String)
    (hcmd : provider_command isWindows secret = Except.ok (program, args))
    (hexec : exec program args = ExecResult.completed exitCode stdout stderrLossy) :
    (∀ text, exitCode = some 0 → from_utf8 stdout = some text →
      resolve_secret exec isWindows secret = Except.ok (trimChars text)
      ∧ mapLookup (pre_resolve exec isWindows SecretResolver.new
          [secret]).state.cache secret = some (trimChars text))
    ∧ (exitCode ≠ some 0 →
      resolve_secret exec isWindows secret
        = Except.error (anyhowNew ("secret provider '" ++ secret.provider
            ++ "' failed (exit code " ++ formatExitCode exitCode ++ "): "
            ++ trimChars stderrLossy))
      ∧ mapLookup (pre_resolve exec isWindows SecretResolver.new
          [secret]).state.failures secret = some (ctxMessage secret))
    ∧ (exitCode = some 0 → from_utf8 stdout = none →
      resolve_secret exec isWindows secret
        = Except.error ((anyhowNew (stdout.invalidDisplay)).withContext
            ("secret provider output is not valid UTF-8"))
      ∧ mapLookup (pre_resolve exec isWindows SecretResolver.new
          [secret]).state.cache secret = none
      ∧ mapLookup (pre_resolve exec isWindows SecretResolver.new
          [secret]).state.failures secret = some (ctxMessage secret)) := by
  refine ⟨?_, ?_, ?_⟩
  · intro text h0 hdec
    subst h0
    have hres : resolve_secret exec isWindows secret = Except.ok (trimChars text) := by
      simp [resolve_secret, hcmd, hexec, hdec]
    refine ⟨hres, ?_⟩
    simp [pre_resolve, preResolveGo, mapContains, mapLookup, SecretResolver.new, hres]
  · intro hne
    have hres : resolve_secret exec isWindows secret
        = Except.error (anyhowNew ("secret provider '" ++ secret.provider
            ++ "' failed (exit code " ++ formatExitCode exitCode ++ "): "
            ++ trimChars stderrLossy)) := by
      simp [resolve_secret, hcmd, hexec, hne]
    refine ⟨hres, ?_⟩
    simp [pre_resolve, preResolveGo, mapContains, mapLookup, SecretResolver.new, hres,
      AnyhowError.withContext, AnyhowError.display, anyhowNew]
  · intro h0 hdec
    subst h0
    have hres : resolve_secret exec isWindows secret
        = Except.error ((anyhowNew (stdout.invalidDisplay)).withContext
            ("secret provider output is not valid UTF-8")) := by
      simp [resolve_secret, hcmd, hexec, hdec]
    refine ⟨hres, ?_, ?_⟩ <;>
      simp [pre_resolve, preResolveGo, mapContains, mapLookup, SecretResolver.new, hres,
        AnyhowError.withContext, AnyhowError.display, anyhowNew]

/-- Claim C8 (amended), instantiated: stdout `"  sk-123\n"` on zero exit
is cached as `sk-123`; invalid UTF-8 stdout yields a failure entry and no
cached value. -/
theorem provider_outcome_handling_witness :
    mapLookup (pre_resolve
        (fun _ _ => ExecResult.completed (some 0)
          (Utf8Bytes.valid ("  sk-123\n")) (""))
        false SecretResolver.new [⟨"1password", "op://v/i/f"⟩]).state.cache
        ⟨"1password", "op://v/i/f"⟩ = some ("sk-123")
    ∧ mapLookup (pre_resolve
        (fun _ _ => ExecResult.completed (some 0)
          (Utf8Bytes.invalid ("invalid utf-8 sequence")) (""))
        false SecretResolver.new [⟨"1password", "op://v/i/f"⟩]).state.cache
        ⟨"1password", "op://v/i/f"⟩ = none := by
  constructor
  · exact (((provider_outcome_handling
      (fun _ _ => ExecResult.completed (some 0) (Utf8Bytes.valid ("  sk-123\n")) (""))
      false ⟨"1password", "op://v/i/f"⟩ "op" ["read", "op://v/i/f"]
      (some 0) (Utf8Bytes.valid ("  sk-123\n")) ("")
      (by rfl) (by rfl)).1 "  sk-123\n" rfl rfl).2).trans (by decide)
  · exact ((provider_outcome_handling
      (fun _ _ => ExecResult.completed (some 0)
        (Utf8Bytes.invalid ("invalid utf-8 sequence")) (""))
      false ⟨"1password", "op://v/i/f"⟩ "op" ["read", "op://v/i/f"]
      (some 0) (Utf8Bytes.invalid ("invalid utf-8 sequence")) ("")
      (by rfl) (by rfl)).2.2 rfl rfl).2.1

/-- Claim C9: across any sequence of calls against one resolver, both
caches only grow — an entry present in the success or failure cache keeps
its exact value through every later call (`pre_resolve` only inserts
references it found in neither cache, and `resolve_env_map` reads without
mutating: its state transition is the identity). -/
theorem resolver_caches_grow_only (ops : List ResolverOp) (s : ResolverState)
    (r : SecretReference) :
    (∀ v, mapLookup s.cache r = some v → mapLookup (runOps s ops).cache r = some v)
    ∧ (∀ m, mapLookup s.failures r = some m →
        mapLookup (runOps s ops).failures r = some m)
    ∧ ∀ env, runOps s [ResolverOp.resolveMap env] = s := by
  exact ⟨fun v hv => runOps_cache_lookup_mono ops s r v hv,
    fun m hm => runOps_failures_lookup_mono ops s r m hm,
    fun env => rfl⟩

/-- Claim C9, instantiated: a cached value and a cached failure message
both survive a later `pre_resolve` batch (here one that re-lists the same
reference next to a new one) and a later `resolve_env_map` call. -/
theorem resolver_caches_grow_only_witness :
    mapLookup (runOps
        { cache := [(⟨"1password", "a"⟩, "sk-123")],
          failures := [(⟨"1password", "b"⟩, "bad")] }
        [ResolverOp.pre (fun _ _ => ExecResult.completed (some 0)
            (Utf8Bytes.valid ("v")) ("")) false
            [⟨"1password", "a"⟩, ⟨"1password", "b"⟩, ⟨"1password", "c"⟩],
         ResolverOp.resolveMap [("X", EnvValue.Plain ("1"))]]).cache
      ⟨"1password", "a"⟩ = some ("sk-123")
    ∧ mapLookup (runOps
        { cache := [(⟨"1password", "a"⟩, "sk-123")],
          failures := [(⟨"1password", "b"⟩, "bad")] }
        [ResolverOp.pre (fun _ _ => ExecResult.completed (some 0)
            (Utf8Bytes.valid ("v")) ("")) false
            [⟨"1password", "a"⟩, ⟨"1password", "b"⟩, ⟨"1password", "c"⟩],
         ResolverOp.resolveMap [("X", EnvValue.Plain ("1"))]]).failures
      ⟨"1password", "b"⟩ = some ("bad") := by
  constructor
  · exact (resolver_caches_grow_only
      [ResolverOp.pre (fun _ _ => ExecResult.completed (some 0)
          (Utf8Bytes.valid ("v")) ("")) false
          [⟨"1password", "a"⟩, ⟨"1password", "b"⟩, ⟨"1password", "c"⟩],
       ResolverOp.resolveMap [("X", EnvValue.Plain ("1"))]]
      { cache := [(⟨"1password", "a"⟩, "sk-123")],
        failures := [(⟨"1password", "b"⟩, "bad")] }
      ⟨"1password", "a"⟩).1 "sk-123" (by decide)
  · exact (resolver_caches_grow_only
      [ResolverOp.pre (fun _ _ => ExecResult.completed (some 0)
          (Utf8Bytes.valid ("v")) ("")) false
          [⟨"1password", "a"⟩, ⟨"1password", "b"⟩, ⟨"1password", "c"⟩],
       ResolverOp.resolveMap [("X", EnvValue.Plain ("1"))]]
      { cache := [(⟨"1password", "a"⟩, "sk-123")],
        failures := [(⟨"1password", "b"⟩, "bad")] }
      ⟨"1password", "b"⟩).2.1 "bad" (by decide)

/-- Claim C10: starting from a freshly constructed resolver, after any
sequence of `pre_resolve` and `resolve_env_map` calls the success cache
and the failure cache have disjoint key sets: no reference is ever in
both. -/
theorem caches_keys_disjoint (ops : List ResolverOp) (r : SecretReference) :
    (mapContains (runOps SecretResolver.new ops).cache r
      && mapContains (runOps SecretResolver.new ops).failures r) = false :=
  runOps_disjoint ops SecretResolver.new
    (fun _ => by simp [SecretResolver.new, mapContains, mapLookup]) r

/-- Claim C10, instantiated: after a batch with one success and one
failure, the succeeded reference is only in the success cache and the
failed one only in the failure cache. -/
theorem caches_keys_disjoint_witness :
    (mapContains (runOps SecretResolver.new
        [ResolverOp.pre (fun _ args => if args = ["read", "b"] then
            ExecResult.completed (some 1) (Utf8Bytes.valid ("")) ("bad")
          else ExecResult.completed (some 0) (Utf8Bytes.valid ("v")) ("")) false
          [⟨"1password", "a"⟩, ⟨"1password", "b"⟩]]).cache ⟨"1password", "a"⟩
      && mapContains (runOps SecretResolver.new
        [ResolverOp.pre (fun _ args => if args = ["read", "b"] then
            ExecResult.completed (some 1) (Utf8Bytes.valid ("")) ("bad")
          else ExecResult.completed (some 0) (Utf8Bytes.valid ("v")) ("")) false
          [⟨"1password", "a"⟩, ⟨"1password", "b"⟩]]).failures ⟨"1password", "a"⟩)
      = false
    ∧ (mapContains (runOps SecretResolver.new
        [ResolverOp.pre (fun _ args => if args = ["read", "b"] then
            ExecResult.completed (some 1) (Utf8Bytes.valid ("")) ("bad")
          else ExecResult.completed (some 0) (Utf8Bytes.valid ("v")) ("")) false
          [⟨"1password", "a"⟩, ⟨"1password", "b"⟩]]).cache ⟨"1password", "b"⟩
      && mapContains (runOps SecretResolver.new
        [ResolverOp.pre (fun _ args => if args = ["read", "b"] then
            ExecResult.completed (some 1) (Utf8Bytes.valid ("")) ("bad")
          else ExecResult.completed (some 0) (Utf8Bytes.valid ("v")) ("")) false
          [⟨"1password", "a"⟩, ⟨"1password", "b"⟩]]).failures ⟨"1password", "b"⟩)
      = false :=
  ⟨caches_keys_disjoint
      [ResolverOp.pre (fun _ args => if args = ["read", "b"] then
          ExecResult.completed (some 1) (Utf8Bytes.valid ("")) ("bad")
        else ExecResult.completed (some 0) (Utf8Bytes.valid ("v")) ("")) false
        [⟨"1password", "a"⟩, ⟨"1password", "b"⟩]] ⟨"1password", "a"⟩,
    caches_keys_disjoint
      [ResolverOp.pre (fun _ args => if args = ["read", "b"] then
          ExecResult.completed (some 1) (Utf8Bytes.valid ("")) ("bad")
        else ExecResult.completed (some 0) (Utf8Bytes.valid ("v")) ("")) false
        [⟨"1password", "a"⟩, ⟨"1password", "b"⟩]] ⟨"1password", "b"⟩⟩

end SecretResolverSpec
